import Mathlib

/-!
Verification development for the chome2 expense-sharing backend.

The embedding below models, in Lean, the data model and the operations of
`src/services/sheets.js` and the expense route of `src/routes/expenses.js`:

* rows of the three sheets (`users`, `expenses`, `expense_consumers`) become
  structures whose fields carry the parsed values the code works with
  (`parseInt` ids become `Nat`, `parseFloat` amounts become `ℚ`);
* the JS object `balances` keyed by integer user ids becomes an association
  list sorted strictly by key: JS objects enumerate integer-index keys in
  ascending numeric order, so `Object.values(balances)` is the value list of
  that sorted association list;
* `Math.round(x * 100) / 100` becomes `round2` (`Math.round x = ⌊x + 1/2⌋`);
* fallible code (`getExpenses` dereferences `users.find(...)` without a
  guard) returns `Option`.

Monetary arithmetic is modelled with `ℚ`; the JS engine computes with binary
doubles, so the rational model is exact where the double computation only
approximates, but every algebraic fact proved here is about the embedded
algorithm, which follows the source statement by statement.
-/

namespace Chome2

/-- A row of the `users` sheet as `calculateBalance`/`createUser` read it:
`id` is `parseInt(row.get('id'))` (a positive integer per the data model). -/
structure UserRow where
  id : Nat
  name : String
  email : String
  password : String
  created_at : String
deriving DecidableEq

/-- A row of the `expenses` sheet; `amount` is `parseFloat(row.get('amount'))`. -/
structure ExpenseRow where
  id : Nat
  product_name : String
  quantity : Nat
  paid_by : Nat
  amount : ℚ
  expense_date : String
  note : String
  created_at : String
deriving DecidableEq

/-- A row of the `expense_consumers` sheet. -/
structure ConsumerRow where
  id : Nat
  expense_id : Nat
  user_id : Nat
  created_at : String
deriving DecidableEq

/-- One entry of the `balances` object built by `calculateBalance`. -/
structure BalanceEntry where
  id : Nat
  name : String
  paid : ℚ
  owe : ℚ
  balance : ℚ
deriving DecidableEq

/-- The rounding `Math.round(q * 100) / 100`: JS `Math.round x = ⌊x + 1/2⌋`
(halves round toward positive infinity). -/
def round2 (q : ℚ) : ℚ := ((Rat.floor (q * 100 + 1 / 2) : ℤ) : ℚ) / 100

/-! ### The `balances` object

JS objects with integer-index keys enumerate those keys in ascending numeric
order, and assigning to a key either overwrites the stored value (key present)
or inserts the key at its numeric position.  `mapInsert`/`mapUpdate`/
`mapLookup` implement exactly that on an association list kept sorted by key.
-/

/-- Assignment `balances[k] = v` (insert or overwrite, keeping ascending key order). -/
def mapInsert : List (Nat × BalanceEntry) → Nat → BalanceEntry → List (Nat × BalanceEntry)
  | [], k, v => [(k, v)]
  | (k', v') :: t, k, v =>
    if k < k' then (k, v) :: (k', v') :: t
    else if k = k' then (k, v) :: t
    else (k', v') :: mapInsert t k v

/-- Guarded mutation `if (balances[k]) ...`: apply `f` to the value at key
`k` when present, otherwise leave the object unchanged. -/
def mapUpdate : List (Nat × BalanceEntry) → Nat → (BalanceEntry → BalanceEntry) →
    List (Nat × BalanceEntry)
  | [], _, _ => []
  | (k', v') :: t, k, f =>
    if k' = k then (k', f v') :: mapUpdate t k f else (k', v') :: mapUpdate t k f

/-- Reading `balances[k]`, as an `Option`. -/
def mapLookup : List (Nat × BalanceEntry) → Nat → Option BalanceEntry
  | [], _ => none
  | (k', v) :: t, k => if k = k' then some v else mapLookup t k

/-- The fresh entry `calculateBalance` creates for a user row. -/
def initEntry (u : UserRow) : BalanceEntry :=
  { id := u.id, name := u.name, paid := 0, owe := 0, balance := 0 }

/-- Phase 1 of `calculateBalance`: `users.forEach(user => balances[id] = {...})`. -/
def initBalances (users : List UserRow) : List (Nat × BalanceEntry) :=
  users.foldl (fun m u => mapInsert m u.id (initEntry u)) []

/-- Phase 2: `expenses.forEach`: `if (balances[paidBy]) balances[paidBy].paid += amount`. -/
def addPaidPhase (expenses : List ExpenseRow) (m : List (Nat × BalanceEntry)) :
    List (Nat × BalanceEntry) :=
  expenses.foldl (fun m e => mapUpdate m e.paid_by (fun v => { v with paid := v.paid + e.amount })) m

/-- Phase 3: for each expense, filter its consumer rows; when the group is
non-empty, add `amount / group size` to the `owe` of each consumer that has a
balance entry. -/
def addOwePhase (expenses : List ExpenseRow) (consumers : List ConsumerRow)
    (m : List (Nat × BalanceEntry)) : List (Nat × BalanceEntry) :=
  expenses.foldl (fun m e =>
    let ecs := consumers.filter (fun c => c.expense_id == e.id)
    if 0 < ecs.length then
      let per := e.amount / (ecs.length : ℚ)
      ecs.foldl (fun m c => mapUpdate m c.user_id (fun v => { v with owe := v.owe + per })) m
    else m) m

/-- Phase 4 on one entry: `balance = round2(paid - owe)` computed from the
unrounded accumulators, then `paid` and `owe` themselves rounded. -/
def finEntry (v : BalanceEntry) : BalanceEntry :=
  { v with
    balance := round2 (v.paid - v.owe),
    paid := round2 v.paid,
    owe := round2 v.owe }

/-- Phase 4: the `Object.keys(balances).forEach` rounding pass. -/
def finalize (m : List (Nat × BalanceEntry)) : List (Nat × BalanceEntry) :=
  m.map (fun p => (p.1, finEntry p.2))

/-- Function `calculateBalance` of `src/services/sheets.js`, acting on the snapshot of
the three sheets it fetches.  Returns `Object.values(balances)`. -/
def calculateBalance (users : List UserRow) (expenses : List ExpenseRow)
    (consumers : List ConsumerRow) : List BalanceEntry :=
  (finalize (addOwePhase expenses consumers (addPaidPhase expenses (initBalances users)))).map
    Prod.snd

/-! ### Closed-form descriptions of the accumulators -/

/-- Sum of the second components of the pairs in `ps` whose key is `k`. -/
def sumFor (ps : List (Nat × ℚ)) (k : Nat) : ℚ :=
  ((ps.filter (fun p => p.1 = k)).map Prod.snd).sum

/-- Total amount paid by user id `k`: sum of `amount` over expenses with
`paid_by = k`. -/
def paidRaw (expenses : List ExpenseRow) (k : Nat) : ℚ :=
  sumFor (expenses.map (fun e => (e.paid_by, e.amount))) k

/-- The owe contributions one expense generates: one pair
`(user_id, amount / group size)` per consumer row of the expense, none when
the group is empty. -/
def oweContribs (consumers : List ConsumerRow) (e : ExpenseRow) : List (Nat × ℚ) :=
  let ecs := consumers.filter (fun c => c.expense_id == e.id)
  if 0 < ecs.length then ecs.map (fun c => (c.user_id, e.amount / (ecs.length : ℚ))) else []

/-- All owe contributions of all expenses, in execution order. -/
def owePairs (expenses : List ExpenseRow) (consumers : List ConsumerRow) : List (Nat × ℚ) :=
  expenses.flatMap (oweContribs consumers)

/-- Total share owed by user id `k` before rounding. -/
def oweRaw (expenses : List ExpenseRow) (consumers : List ConsumerRow) (k : Nat) : ℚ :=
  sumFor (owePairs expenses consumers) k

/-- Ascending insertion without duplication: the key order of a JS object. -/
def keyInsert : List Nat → Nat → List Nat
  | [], k => [k]
  | k' :: t, k =>
    if k < k' then k :: k' :: t
    else if k = k' then k :: t
    else k' :: keyInsert t k

/-- The ascending list of distinct user ids: the keys of `balances`. -/
def sortedIds (users : List UserRow) : List Nat :=
  users.foldl (fun l u => keyInsert l u.id) []

/-- The user row that last wrote the balance entry of id `k` (JS assignment
overwrites, so the last row with a given id wins). -/
def lastUser (users : List UserRow) (k : Nat) : Option UserRow :=
  users.reverse.find? (fun u => u.id == k)

/-- Name stored in the balance entry of id `k`. -/
def lastName (users : List UserRow) (k : Nat) : String :=
  ((lastUser users k).map (fun u => u.name)).getD ""

/-- Closed form of the entry `calculateBalance` returns for user id `k`. -/
def finalEntry (users : List UserRow) (expenses : List ExpenseRow)
    (consumers : List ConsumerRow) (k : Nat) : BalanceEntry :=
  { id := k
    name := lastName users k
    paid := round2 (paidRaw expenses k)
    owe := round2 (oweRaw expenses consumers k)
    balance := round2 (paidRaw expenses k - oweRaw expenses consumers k) }

/-! ### Creation operations -/

/-- Next id: `rows.length > 0 ? Math.max(...ids) + 1 : 1`.  For a non-empty list of
natural-number ids, `Math.max(...ids)` is `ids.foldl Nat.max 0`. -/
def nextId (ids : List Nat) : Nat :=
  match ids with
  | [] => 1
  | _ :: _ => ids.foldl Nat.max 0 + 1

/-- The next-id formula as the spec words it: `max(existing ids, default 0) + 1`,
the default applying when the table is empty. -/
def specNextId (ids : List Nat) : Nat := ids.foldl Nat.max 0 + 1

/-- The in-memory snapshot of the three sheets. -/
structure Tables where
  users : List UserRow
  expenses : List ExpenseRow
  consumers : List ConsumerRow
deriving DecidableEq

structure UserData where
  name : String
  email : String
  password : String
deriving DecidableEq

structure CreatedUser where
  id : Nat
  name : String
  email : String
  created_at : String
deriving DecidableEq

/-- Function `createUser`: fresh fetch of the users table, max+1 id, append, return the
created record without the password. -/
def createUser (st : Tables) (d : UserData) (now : String) : Tables × CreatedUser :=
  let newId := nextId (st.users.map (fun r => r.id))
  let row : UserRow :=
    { id := newId, name := d.name, email := d.email, password := d.password, created_at := now }
  ({ st with users := st.users ++ [row] },
   { id := newId, name := d.name, email := d.email, created_at := now })

/-- The validated payload `createExpense` receives from the route. -/
structure ExpenseData where
  product_name : String
  quantity : Nat
  paid_by : Nat
  amount : ℚ
  expense_date : String
  note : String
  consumers : List Nat
deriving DecidableEq

/-- The record `... id: newExpenseId, ...expenseData, created_at: currentTime ...`. -/
structure CreatedExpense where
  id : Nat
  product_name : String
  quantity : Nat
  paid_by : Nat
  amount : ℚ
  expense_date : String
  note : String
  consumers : List Nat
  created_at : String
deriving DecidableEq

/-- The consumer rows appended by the loop
`for (i = 0; i < consumers.length; i++) addRow({id: start + i, expense_id, user_id: consumers[i]})`. -/
def mkConsumerRows (start : Nat) (eid : Nat) (now : String) : List Nat → List ConsumerRow
  | [] => []
  | uid :: rest =>
    { id := start, expense_id := eid, user_id := uid, created_at := now } ::
      mkConsumerRows (start + 1) eid now rest

/-- Function `createExpense`: max+1 id over the expenses table, append the expense row,
then max+1 scan over the consumer table for the starting consumer id and one
appended consumer row per consumer. -/
def createExpense (st : Tables) (d : ExpenseData) (now : String) : Tables × CreatedExpense :=
  let newExpenseId := nextId (st.expenses.map (fun r => r.id))
  let expRow : ExpenseRow :=
    { id := newExpenseId, product_name := d.product_name, quantity := d.quantity,
      paid_by := d.paid_by, amount := d.amount, expense_date := d.expense_date,
      note := d.note, created_at := now }
  let startConsumerId := nextId (st.consumers.map (fun r => r.id))
  let newRows := mkConsumerRows startConsumerId newExpenseId now d.consumers
  ({ st with expenses := st.expenses ++ [expRow], consumers := st.consumers ++ newRows },
   { id := newExpenseId, product_name := d.product_name, quantity := d.quantity,
     paid_by := d.paid_by, amount := d.amount, expense_date := d.expense_date,
     note := d.note, consumers := d.consumers, created_at := now })

/-! ### `getExpenses` -/

/-- A `{id, name}` pair as `getExpenses` renders users. -/
structure ConsumerView where
  id : Nat
  name : String
deriving DecidableEq

/-- One element of the `GET /expenses` response. -/
structure ExpenseView where
  id : Nat
  product_name : String
  quantity : Nat
  amount : ℚ
  expense_date : String
  note : String
  paid_by : ConsumerView
  consumers : List ConsumerView
  amount_per_person : ℚ
  created_at : String
deriving DecidableEq

/-- Resolve each consumer row's user: `users.find(...)` is dereferenced with
no guard, so a missing user aborts the whole call (`none`). -/
def resolveConsumers (users : List UserRow) : List ConsumerRow → Option (List ConsumerView)
  | [] => some []
  | c :: rest =>
    match users.find? (fun u => u.id == c.user_id) with
    | none => none
    | some u =>
      match resolveConsumers users rest with
      | none => none
      | some vs => some ({ id := u.id, name := u.name } :: vs)

/-- Build the view of one expense; fails when the payer or any consumer is
missing from the users table. -/
def viewOne (users : List UserRow) (consumers : List ConsumerRow) (e : ExpenseRow) :
    Option ExpenseView :=
  match users.find? (fun u => u.id == e.paid_by) with
  | none => none
  | some payer =>
    let ecs := consumers.filter (fun c => c.expense_id == e.id)
    match resolveConsumers users ecs with
    | none => none
    | some cvs =>
      some { id := e.id, product_name := e.product_name, quantity := e.quantity,
             amount := e.amount, expense_date := e.expense_date, note := e.note,
             paid_by := { id := payer.id, name := payer.name }, consumers := cvs,
             amount_per_person := e.amount / (ecs.length : ℚ), created_at := e.created_at }

/-- Map `viewOne` over the expense list, failing as soon as one view fails. -/
def viewAll (users : List UserRow) (consumers : List ConsumerRow) :
    List ExpenseRow → Option (List ExpenseView)
  | [] => some []
  | e :: rest =>
    match viewOne users consumers e with
    | none => none
    | some v =>
      match viewAll users consumers rest with
      | none => none
      | some vs => some (v :: vs)

/-- Function `getExpenses` of `src/services/sheets.js` on a snapshot of the sheets. -/
def getExpenses (users : List UserRow) (expenses : List ExpenseRow)
    (consumers : List ConsumerRow) : Option (List ExpenseView) :=
  viewAll users consumers expenses

/-! ### The `POST /expenses` handler -/

/-- The request body of `POST /expenses`; `none` is an absent JSON field. -/
structure ExpenseReq where
  product_name : Option String
  quantity : Option Nat
  paid_by : Option Nat
  amount : Option ℚ
  expense_date : Option String
  note : Option String
  consumers : Option (List Nat)
deriving DecidableEq

/-- JS truthiness of an optional string: `undefined` and `""` are falsy. -/
def truthyStr : Option String → Bool
  | none => false
  | some s => !(s == "")

/-- JS truthiness of an optional number: `undefined` and `0` are falsy. -/
def truthyNum : Option ℚ → Bool
  | none => false
  | some q => !(q == 0)

/-- JS truthiness of an optional natural number field. -/
def truthyNat : Option Nat → Bool
  | none => false
  | some n => !(n == 0)

/-- The check `!consumers || consumers.length === 0`: an array is always truthy, so this
holds exactly when the field is absent or the list is empty. -/
def consumersMissing : Option (List Nat) → Bool
  | none => true
  | some l => l.isEmpty

/-- Outcome of the handler: HTTP status, resulting store state, response body. -/
structure PostResult where
  status : Nat
  state : Tables
  body : Option CreatedExpense
deriving DecidableEq

/-- The payload the handler passes to `createExpense` once validation passed:
`quantity || 1` and `note || ''` (JS truthiness defaults). -/
def reqToData (r : ExpenseReq) : ExpenseData :=
  { product_name := r.product_name.getD ""
    quantity := if truthyNat r.quantity then r.quantity.getD 1 else 1
    paid_by := r.paid_by.getD 0
    amount := r.amount.getD 0
    expense_date := r.expense_date.getD ""
    note := if truthyStr r.note then r.note.getD "" else ""
    consumers := r.consumers.getD [] }

/-- The `POST /expenses` handler of `src/routes/expenses.js`:
`if (!product_name || !paid_by || !amount || !expense_date || !consumers || consumers.length === 0)`
answer 400 without touching the store; otherwise create the expense and answer
201 with the created record. -/
def postExpense (st : Tables) (r : ExpenseReq) (now : String) : PostResult :=
  if !truthyStr r.product_name || !truthyNat r.paid_by || !truthyNum r.amount ||
      !truthyStr r.expense_date || consumersMissing r.consumers then
    { status := 400, state := st, body := none }
  else
    let res := createExpense st (reqToData r) now
    { status := 201, state := res.1, body := some res.2 }

/-! ## Basic facts about `round2` -/

lemma ratFloor_eq_intFloor (q : ℚ) : (Rat.floor q : ℤ) = ⌊q⌋ := by
  rw [Rat.floor_def', Rat.floor_def]

lemma round2_eq_floor (q : ℚ) : round2 q = ((⌊q * 100 + 1 / 2⌋ : ℤ) : ℚ) / 100 := by
  rw [round2, ratFloor_eq_intFloor]

lemma round2_zero : round2 0 = 0 := by
  rw [round2_eq_floor]; norm_num

/-- Rounding to two decimals moves a value by at most half a cent. -/
lemma abs_round2_sub_le (q : ℚ) : |round2 q - q| ≤ 1 / 200 := by
  rw [round2_eq_floor, abs_le]
  have h1 : ((⌊q * 100 + 1 / 2⌋ : ℤ) : ℚ) ≤ q * 100 + 1 / 2 := Int.floor_le _
  have h2 : q * 100 + 1 / 2 < (⌊q * 100 + 1 / 2⌋ : ℤ) + 1 := Int.lt_floor_add_one _
  constructor <;> [nlinarith; nlinarith]

/-! ## The sorted association list behaves like a JS integer-keyed object -/

lemma mapLookup_mapInsert_self (m : List (Nat × BalanceEntry)) (k : Nat) (v : BalanceEntry) :
    mapLookup (mapInsert m k v) k = some v := by
  induction m with
  | nil => simp [mapInsert, mapLookup]
  | cons p t ih =>
    obtain ⟨k', v'⟩ := p
    by_cases h1 : k < k'
    · simp [mapInsert, h1, mapLookup]
    · by_cases h2 : k = k'
      · simp [mapInsert, h1, h2, mapLookup]
      · simp [mapInsert, h1, h2, mapLookup, ih]

lemma mapLookup_mapInsert_ne (m : List (Nat × BalanceEntry)) (k : Nat) (v : BalanceEntry)
    (a : Nat) (h : a ≠ k) : mapLookup (mapInsert m k v) a = mapLookup m a := by
  induction m with
  | nil => simp [mapInsert, mapLookup, h]
  | cons p t ih =>
    obtain ⟨k', v'⟩ := p
    by_cases h1 : k < k'
    · simp [mapInsert, h1, mapLookup, h]
    · by_cases h2 : k = k'
      · subst h2; simp [mapInsert, h1, mapLookup, h]
      · by_cases h3 : a = k'
        · simp [mapInsert, h1, h2, mapLookup, h3]
        · simp [mapInsert, h1, h2, mapLookup, h3, ih]

lemma keys_mapInsert (m : List (Nat × BalanceEntry)) (k : Nat) (v : BalanceEntry) :
    (mapInsert m k v).map Prod.fst = keyInsert (m.map Prod.fst) k := by
  induction m with
  | nil => simp [mapInsert, keyInsert]
  | cons p t ih =>
    obtain ⟨k', v'⟩ := p
    by_cases h1 : k < k'
    · simp [mapInsert, keyInsert, h1]
    · by_cases h2 : k = k'
      · simp [mapInsert, keyInsert, h1, h2]
      · simp [mapInsert, keyInsert, h1, h2, ih]

lemma mem_keyInsert (l : List Nat) (k a : Nat) : a ∈ keyInsert l k ↔ a = k ∨ a ∈ l := by
  induction l with
  | nil => simp [keyInsert]
  | cons k' t ih =>
    by_cases h1 : k < k'
    · simp [keyInsert, h1]
    · by_cases h2 : k = k'
      · subst h2
        simp only [keyInsert, h1, if_neg, not_false_iff, if_pos, List.mem_cons]
        tauto
      · simp [keyInsert, h1, h2, ih]; tauto

lemma pairwise_keyInsert (l : List Nat) (k : Nat) (h : l.Pairwise (· < ·)) :
    (keyInsert l k).Pairwise (· < ·) := by
  induction l with
  | nil => simp [keyInsert]
  | cons k' t ih =>
    rw [List.pairwise_cons] at h
    by_cases h1 : k < k'
    · rw [keyInsert]
      simp only [h1, if_pos]
      refine List.Pairwise.cons ?_ (List.Pairwise.cons h.1 h.2)
      intro b hb
      rcases List.mem_cons.mp hb with hb | hb
      · exact hb ▸ h1
      · exact lt_trans h1 (h.1 b hb)
    · by_cases h2 : k = k'
      · subst h2
        rw [keyInsert]
        simp only [h1, if_neg, not_false_iff, if_pos]
        exact List.Pairwise.cons h.1 h.2
      · rw [keyInsert]
        simp only [h1, h2, if_neg, not_false_iff]
        refine List.Pairwise.cons ?_ (ih h.2)
        intro b hb
        rcases (mem_keyInsert t k b).mp hb with hb | hb
        · subst hb
          exact lt_of_le_of_ne (not_lt.mp h1) (Ne.symm h2)
        · exact h.1 b hb

lemma keys_mapUpdate (m : List (Nat × BalanceEntry)) (k : Nat) (f : BalanceEntry → BalanceEntry) :
    (mapUpdate m k f).map Prod.fst = m.map Prod.fst := by
  induction m with
  | nil => rfl
  | cons p t ih =>
    obtain ⟨k', v'⟩ := p
    by_cases h : k' = k <;> simp [mapUpdate, h, ih]

lemma mapLookup_mapUpdate_self (m : List (Nat × BalanceEntry)) (k : Nat)
    (f : BalanceEntry → BalanceEntry) :
    mapLookup (mapUpdate m k f) k = (mapLookup m k).map f := by
  induction m with
  | nil => simp [mapUpdate, mapLookup]
  | cons p t ih =>
    obtain ⟨k', v'⟩ := p
    by_cases h : k' = k
    · subst h; simp [mapUpdate, mapLookup]
    · have h' : ¬(k = k') := fun hh => h hh.symm
      simp [mapUpdate, mapLookup, h, h', ih]

lemma mapLookup_mapUpdate_ne (m : List (Nat × BalanceEntry)) (k : Nat)
    (f : BalanceEntry → BalanceEntry) (a : Nat) (h : a ≠ k) :
    mapLookup (mapUpdate m k f) a = mapLookup m a := by
  induction m with
  | nil => simp [mapUpdate, mapLookup]
  | cons p t ih =>
    obtain ⟨k', v'⟩ := p
    by_cases h1 : k' = k
    · subst h1
      simp [mapUpdate, mapLookup, h, ih]
    · by_cases h2 : a = k'
      · simp [mapUpdate, mapLookup, h1, h2]
      · simp [mapUpdate, mapLookup, h1, h2, ih]

lemma mapLookup_finalize (m : List (Nat × BalanceEntry)) (k : Nat) :
    mapLookup (finalize m) k = (mapLookup m k).map finEntry := by
  induction m with
  | nil => simp [finalize, mapLookup]
  | cons p t ih =>
    by_cases h : k = p.1
    · simp [finalize, mapLookup, h]
    · simp only [finalize, List.map_cons, mapLookup, h, if_neg, not_false_iff]
      simpa [finalize] using ih

lemma keys_finalize (m : List (Nat × BalanceEntry)) :
    (finalize m).map Prod.fst = m.map Prod.fst := by
  simp [finalize, List.map_map]

/-! ## Characterizing the initialization fold -/

lemma mapLookup_foldl_insert (users : List UserRow) (m : List (Nat × BalanceEntry)) (k : Nat) :
    mapLookup (users.foldl (fun m u => mapInsert m u.id (initEntry u)) m) k =
      ((lastUser users k).map initEntry).or (mapLookup m k) := by
  induction users generalizing m with
  | nil => simp [lastUser]
  | cons u t ih =>
    rw [List.foldl_cons, ih]
    have hsplit : lastUser (u :: t) k =
        (lastUser t k).or (if u.id == k then some u else none) := by
      simp [lastUser, List.reverse_cons, List.find?_append]
    rw [hsplit]
    cases hf : lastUser t k with
    | some w => rfl
    | none =>
      by_cases hk : u.id = k
      · have hk' : k = u.id := hk.symm
        subst hk'
        simp [mapLookup_mapInsert_self]
      · have hne : k ≠ u.id := fun hh => hk hh.symm
        have hb : (u.id == k) = false := by simp [hk]
        rw [mapLookup_mapInsert_ne _ _ _ _ hne, hb]
        rfl

lemma mapLookup_initBalances (users : List UserRow) (k : Nat) :
    mapLookup (initBalances users) k = (lastUser users k).map initEntry := by
  rw [initBalances, mapLookup_foldl_insert]
  cases lastUser users k <;> rfl

lemma keys_foldl_insert (users : List UserRow) (m : List (Nat × BalanceEntry)) :
    (users.foldl (fun m u => mapInsert m u.id (initEntry u)) m).map Prod.fst =
      users.foldl (fun l u => keyInsert l u.id) (m.map Prod.fst) := by
  induction users generalizing m with
  | nil => rfl
  | cons u t ih => rw [List.foldl_cons, ih, keys_mapInsert, List.foldl_cons]

lemma keys_initBalances (users : List UserRow) :
    (initBalances users).map Prod.fst = sortedIds users := by
  rw [initBalances, keys_foldl_insert]; rfl

lemma pairwise_foldl_keyInsert (users : List UserRow) (l : List Nat)
    (h : l.Pairwise (· < ·)) :
    (users.foldl (fun l u => keyInsert l u.id) l).Pairwise (· < ·) := by
  induction users generalizing l with
  | nil => exact h
  | cons u t ih => exact ih _ (pairwise_keyInsert l u.id h)

lemma sortedIds_pairwise (users : List UserRow) : (sortedIds users).Pairwise (· < ·) :=
  pairwise_foldl_keyInsert users [] List.Pairwise.nil

lemma mem_foldl_keyInsert (users : List UserRow) (l : List Nat) (a : Nat) :
    a ∈ users.foldl (fun l u => keyInsert l u.id) l ↔ a ∈ l ∨ ∃ u ∈ users, u.id = a := by
  induction users generalizing l with
  | nil => simp
  | cons u t ih =>
    rw [List.foldl_cons, ih, mem_keyInsert]
    constructor
    · rintro ((h | h) | ⟨w, hw, hid⟩)
      · exact Or.inr ⟨u, List.mem_cons_self u t, h.symm⟩
      · exact Or.inl h
      · exact Or.inr ⟨w, List.mem_cons_of_mem u hw, hid⟩
    · rintro (h | ⟨w, hw, hid⟩)
      · exact Or.inl (Or.inr h)
      · rcases List.mem_cons.mp hw with hw | hw
        · exact Or.inl (Or.inl (hw ▸ hid.symm))
        · exact Or.inr ⟨w, hw, hid⟩

lemma mem_sortedIds (users : List UserRow) (a : Nat) :
    a ∈ sortedIds users ↔ a ∈ users.map (fun u => u.id) := by
  rw [sortedIds, mem_foldl_keyInsert]
  simp [eq_comm]

/-- An id in the users table has a `lastUser`, and it carries that id. -/
lemma lastUser_of_mem (users : List UserRow) (k : Nat)
    (h : k ∈ users.map (fun u => u.id)) :
    ∃ w, lastUser users k = some w ∧ w.id = k := by
  rcases List.mem_map.mp h with ⟨u, hu, hid⟩
  have hmem : u ∈ users.reverse := List.mem_reverse.mpr hu
  have hsome : (users.reverse.find? (fun x => x.id == k)).isSome := by
    rw [List.find?_isSome]
    exact ⟨u, hmem, by simp [hid]⟩
  rcases Option.isSome_iff_exists.mp hsome with ⟨w, hw⟩
  refine ⟨w, hw, ?_⟩
  have := List.find?_some hw
  simpa using this

/-! ## Characterizing the accumulation folds -/

lemma sumFor_nil (k : Nat) : sumFor [] k = 0 := rfl

lemma sumFor_cons (p : Nat × ℚ) (ps : List (Nat × ℚ)) (k : Nat) :
    sumFor (p :: ps) k = (if p.1 = k then p.2 else 0) + sumFor ps k := by
  by_cases h : p.1 = k <;> simp [sumFor, List.filter_cons, h]

/-- One step of the paid accumulation, keyed by a `(paid_by, amount)` pair. -/
def addPaidStep (m : List (Nat × BalanceEntry)) (p : Nat × ℚ) : List (Nat × BalanceEntry) :=
  mapUpdate m p.1 (fun v => { v with paid := v.paid + p.2 })

/-- One step of the owe accumulation, keyed by a `(user_id, share)` pair. -/
def addOweStep (m : List (Nat × BalanceEntry)) (p : Nat × ℚ) : List (Nat × BalanceEntry) :=
  mapUpdate m p.1 (fun v => { v with owe := v.owe + p.2 })

lemma mapLookup_foldl_addPaid (ps : List (Nat × ℚ)) (m : List (Nat × BalanceEntry)) (k : Nat) :
    mapLookup (ps.foldl addPaidStep m) k =
      (mapLookup m k).map (fun v => { v with paid := v.paid + sumFor ps k }) := by
  induction ps generalizing m with
  | nil =>
    cases h : mapLookup m k <;> simp [h, sumFor_nil]
  | cons p t ih =>
    rw [List.foldl_cons, ih]
    by_cases h : p.1 = k
    · subst h
      rw [addPaidStep, mapLookup_mapUpdate_self, sumFor_cons]
      cases hv : mapLookup m p.1 with
      | none => simp [hv]
      | some v => simp [hv, add_assoc]
    · rw [addPaidStep, mapLookup_mapUpdate_ne _ _ _ _ (fun hh => h hh.symm), sumFor_cons]
      simp [h]

lemma mapLookup_foldl_addOwe (ps : List (Nat × ℚ)) (m : List (Nat × BalanceEntry)) (k : Nat) :
    mapLookup (ps.foldl addOweStep m) k =
      (mapLookup m k).map (fun v => { v with owe := v.owe + sumFor ps k }) := by
  induction ps generalizing m with
  | nil =>
    cases h : mapLookup m k <;> simp [h, sumFor_nil]
  | cons p t ih =>
    rw [List.foldl_cons, ih]
    by_cases h : p.1 = k
    · subst h
      rw [addOweStep, mapLookup_mapUpdate_self, sumFor_cons]
      cases hv : mapLookup m p.1 with
      | none => simp [hv]
      | some v => simp [hv, add_assoc]
    · rw [addOweStep, mapLookup_mapUpdate_ne _ _ _ _ (fun hh => h hh.symm), sumFor_cons]
      simp [h]

/-- The paid phase is the fold of `addPaidStep` over the `(paid_by, amount)` pairs. -/
lemma addPaidPhase_eq (expenses : List ExpenseRow) (m : List (Nat × BalanceEntry)) :
    addPaidPhase expenses m =
      (expenses.map (fun e => (e.paid_by, e.amount))).foldl addPaidStep m := by
  rw [addPaidPhase, List.foldl_map]
  rfl

/-- The owe phase is the fold of `addOweStep` over all owe contributions. -/
lemma addOwePhase_eq (expenses : List ExpenseRow) (consumers : List ConsumerRow)
    (m : List (Nat × BalanceEntry)) :
    addOwePhase expenses consumers m = (owePairs expenses consumers).foldl addOweStep m := by
  induction expenses generalizing m with
  | nil => rfl
  | cons e t ih =>
    have hstep : addOwePhase (e :: t) consumers m =
        addOwePhase t consumers ((oweContribs consumers e).foldl addOweStep m) := by
      rw [addOwePhase, addOwePhase, List.foldl_cons]
      congr 1
      by_cases h : 0 < (consumers.filter (fun c => c.expense_id == e.id)).length
      · simp only [oweContribs, h, if_true, List.foldl_map]
        rfl
      · simp only [oweContribs, h, if_false]
        rfl
    have hsplit : owePairs (e :: t) consumers =
        oweContribs consumers e ++ owePairs t consumers := by
      rw [owePairs, owePairs, List.flatMap_cons]
    rw [hstep, ih, hsplit, List.foldl_append]

lemma mapLookup_addPaidPhase (expenses : List ExpenseRow) (m : List (Nat × BalanceEntry))
    (k : Nat) :
    mapLookup (addPaidPhase expenses m) k =
      (mapLookup m k).map (fun v => { v with paid := v.paid + paidRaw expenses k }) := by
  rw [addPaidPhase_eq, mapLookup_foldl_addPaid, paidRaw]

lemma mapLookup_addOwePhase (expenses : List ExpenseRow) (consumers : List ConsumerRow)
    (m : List (Nat × BalanceEntry)) (k : Nat) :
    mapLookup (addOwePhase expenses consumers m) k =
      (mapLookup m k).map (fun v => { v with owe := v.owe + oweRaw expenses consumers k }) := by
  rw [addOwePhase_eq, mapLookup_foldl_addOwe, oweRaw]

/-! ## Keys are preserved by the accumulation and rounding passes -/

lemma keys_foldl_addPaid (ps : List (Nat × ℚ)) (m : List (Nat × BalanceEntry)) :
    (ps.foldl addPaidStep m).map Prod.fst = m.map Prod.fst := by
  induction ps generalizing m with
  | nil => rfl
  | cons p t ih => rw [List.foldl_cons, ih, addPaidStep, keys_mapUpdate]

lemma keys_foldl_addOwe (ps : List (Nat × ℚ)) (m : List (Nat × BalanceEntry)) :
    (ps.foldl addOweStep m).map Prod.fst = m.map Prod.fst := by
  induction ps generalizing m with
  | nil => rfl
  | cons p t ih => rw [List.foldl_cons, ih, addOweStep, keys_mapUpdate]

/-! ## Reconstruction of the association list from its lookups -/

lemma mapLookup_eq_of_mem (m : List (Nat × BalanceEntry))
    (h : (m.map Prod.fst).Pairwise (· < ·)) (p : Nat × BalanceEntry) (hp : p ∈ m) :
    mapLookup m p.1 = some p.2 := by
  induction m with
  | nil => cases hp
  | cons q t ih =>
    rw [List.map_cons, List.pairwise_cons] at h
    rcases List.mem_cons.mp hp with hp | hp
    · subst hp; simp [mapLookup]
    · have hlt : q.1 < p.1 := h.1 p.1 (List.mem_map.mpr ⟨p, hp, rfl⟩)
      have hne : ¬(p.1 = q.1) := fun hh => absurd (hh ▸ hlt) (lt_irrefl _)
      rw [mapLookup]
      simp only [hne, if_neg, not_false_iff]
      exact ih h.2 hp

lemma map_snd_eq (m : List (Nat × BalanceEntry)) (g : Nat → BalanceEntry)
    (h : ∀ p ∈ m, p.2 = g p.1) : m.map Prod.snd = (m.map Prod.fst).map g := by
  induction m with
  | nil => rfl
  | cons q t ih =>
    rw [List.map_cons, List.map_cons, List.map_cons]
    rw [h q (List.mem_cons_self q t), ih (fun p hp => h p (List.mem_cons_of_mem q hp))]

/-! ## The master description of `calculateBalance` -/

/-- Master description: `calculateBalance` returns exactly one entry per distinct user id, in
ascending id order, and the entry of id `k` is `finalEntry`: name from the last
user row with that id, `paid`/`owe` the rounded sums of matching contributions,
`balance` the rounded difference of the unrounded sums. -/
theorem calculateBalance_eq (users : List UserRow) (expenses : List ExpenseRow)
    (consumers : List ConsumerRow) :
    calculateBalance users expenses consumers =
      (sortedIds users).map (finalEntry users expenses consumers) := by
  set m2 := addOwePhase expenses consumers (addPaidPhase expenses (initBalances users)) with hm2
  have hkeys : m2.map Prod.fst = sortedIds users := by
    rw [hm2, addOwePhase_eq, keys_foldl_addOwe, addPaidPhase_eq, keys_foldl_addPaid,
      keys_initBalances]
  have hpair : ((finalize m2).map Prod.fst).Pairwise (· < ·) := by
    rw [keys_finalize, hkeys]; exact sortedIds_pairwise users
  have hlook : ∀ k, k ∈ sortedIds users →
      mapLookup (finalize m2) k = some (finalEntry users expenses consumers k) := by
    intro k hk
    have hmemids : k ∈ users.map (fun u => u.id) := (mem_sortedIds users k).mp hk
    rcases lastUser_of_mem users k hmemids with ⟨w, hw, hwid⟩
    rw [mapLookup_finalize, hm2, mapLookup_addOwePhase, mapLookup_addPaidPhase,
      mapLookup_initBalances, hw]
    have hname : lastName users k = w.name := by rw [lastName, hw]; rfl
    simp [initEntry, finEntry, finalEntry, hwid, hname]
  have hsnd : ∀ p ∈ finalize m2, p.2 = finalEntry users expenses consumers p.1 := by
    intro p hp
    have hpk : p.1 ∈ sortedIds users := by
      have : p.1 ∈ (finalize m2).map Prod.fst := List.mem_map.mpr ⟨p, hp, rfl⟩
      rwa [keys_finalize, hkeys] at this
    have h1 := mapLookup_eq_of_mem (finalize m2) hpair p hp
    have h2 := hlook p.1 hpk
    rw [h1] at h2
    exact Option.some.inj h2
  calc calculateBalance users expenses consumers
      = (finalize m2).map Prod.snd := rfl
    _ = ((finalize m2).map Prod.fst).map (finalEntry users expenses consumers) :=
        map_snd_eq _ _ hsnd
    _ = (sortedIds users).map (finalEntry users expenses consumers) := by
        rw [keys_finalize, hkeys]

/-! ## Summation facts for the conservation law -/

lemma list_sum_map_add {α : Type} (l : List α) (f g : α → ℚ) :
    (l.map (fun x => f x + g x)).sum = (l.map f).sum + (l.map g).sum := by
  induction l with
  | nil => simp
  | cons a t ih => simp [ih]; ring

lemma list_sum_map_sub {α : Type} (l : List α) (f g : α → ℚ) :
    (l.map (fun x => f x - g x)).sum = (l.map f).sum - (l.map g).sum := by
  induction l with
  | nil => simp
  | cons a t ih => simp [ih]; ring

lemma list_sum_map_const {α : Type} (l : List α) (q : ℚ) :
    (l.map (fun _ => q)).sum = (l.length : ℚ) * q := by
  induction l with
  | nil => simp
  | cons a t ih => simp [ih]; ring

lemma list_sum_ite_eq (K : List Nat) (a : Nat) (x : ℚ) (hnd : K.Nodup) (ha : a ∈ K) :
    (K.map (fun k => if a = k then x else 0)).sum = x := by
  induction K with
  | nil => cases ha
  | cons b t ih =>
    rw [List.nodup_cons] at hnd
    rcases List.mem_cons.mp ha with ha | ha
    · subst ha
      have : ∀ k ∈ t, (if a = k then x else 0) = 0 := by
        intro k hk
        have : a ≠ k := fun hh => hnd.1 (hh ▸ hk)
        simp [this]
      rw [List.map_cons, List.sum_cons, if_pos rfl, List.map_congr_left this]
      simp
    · have hne : a ≠ b := fun hh => hnd.1 (hh ▸ ha)
      rw [List.map_cons, List.sum_cons, if_neg hne, ih hnd.2 ha]
      simp

/-- Exchanging the two summations: summing `sumFor` over a duplicate-free key
list that covers every pair gives the total of all the pairs. -/
lemma list_sum_sumFor (K : List Nat) (ps : List (Nat × ℚ)) (hnd : K.Nodup)
    (hmem : ∀ p ∈ ps, p.1 ∈ K) :
    (K.map (fun k => sumFor ps k)).sum = (ps.map Prod.snd).sum := by
  induction ps with
  | nil =>
    simp [sumFor_nil]
  | cons p t ih =>
    have hcongr : K.map (fun k => sumFor (p :: t) k) =
        K.map (fun k => (if p.1 = k then p.2 else 0) + sumFor t k) :=
      List.map_congr_left (fun k _ => sumFor_cons p t k)
    rw [hcongr, list_sum_map_add, list_sum_ite_eq K p.1 p.2 hnd (hmem p (List.mem_cons_self p t)),
      ih (fun q hq => hmem q (List.mem_cons_of_mem p hq))]
    simp

lemma list_sum_map_flatMap {α β : Type} (l : List α) (f : α → List β) (g : β → ℚ) :
    ((l.flatMap f).map g).sum = (l.map (fun a => ((f a).map g).sum)).sum := by
  induction l with
  | nil => simp
  | cons a t ih => simp [List.flatMap_cons, ih]

lemma list_abs_sum_le (l : List ℚ) : |l.sum| ≤ (l.map (fun x => |x|)).sum := by
  induction l with
  | nil => simp
  | cons a t ih =>
    rw [List.sum_cons, List.map_cons, List.sum_cons]
    calc |a + t.sum| ≤ |a| + |t.sum| := abs_add _ _
      _ ≤ |a| + (t.map (fun x => |x|)).sum := by linarith

lemma list_sum_le_length_mul {α : Type} (l : List α) (f : α → ℚ) (c : ℚ)
    (h : ∀ x ∈ l, f x ≤ c) :
    (l.map f).sum ≤ (l.length : ℚ) * c := by
  induction l with
  | nil => simp
  | cons a t ih =>
    have h1 : f a ≤ c := h a (List.mem_cons_self a t)
    have h2 : (t.map f).sum ≤ (t.length : ℚ) * c :=
      ih (fun x hx => h x (List.mem_cons_of_mem a hx))
    rw [List.map_cons, List.sum_cons, List.length_cons]
    push_cast
    nlinarith

/-- The owe contributions of one expense with a non-empty consumer group sum
exactly to the expense amount. -/
lemma sum_oweContribs (cs : List ConsumerRow) (e : ExpenseRow)
    (h : cs.filter (fun c => c.expense_id == e.id) ≠ []) :
    ((oweContribs cs e).map Prod.snd).sum = e.amount := by
  have hlen : 0 < (cs.filter (fun c => c.expense_id == e.id)).length :=
    List.length_pos.mpr h
  have hne : ((cs.filter (fun c => c.expense_id == e.id)).length : ℚ) ≠ 0 :=
    Nat.cast_ne_zero.mpr (Nat.pos_iff_ne_zero.mp hlen)
  rw [oweContribs]
  simp only [hlen, if_true, List.map_map]
  have : ((cs.filter (fun c => c.expense_id == e.id)).map
      (Prod.snd ∘ fun c => (c.user_id,
        e.amount / ((cs.filter (fun cc => cc.expense_id == e.id)).length : ℚ)))) =
      (cs.filter (fun c => c.expense_id == e.id)).map
        (fun _ => e.amount / ((cs.filter (fun cc => cc.expense_id == e.id)).length : ℚ)) := rfl
  rw [this, list_sum_map_const, mul_div_cancel₀ _ hne]

/-- Every owe contribution is keyed by the `user_id` of some consumer row. -/
lemma owePairs_fst_mem (es : List ExpenseRow) (cs : List ConsumerRow) (p : Nat × ℚ)
    (hp : p ∈ owePairs es cs) : ∃ c ∈ cs, p.1 = c.user_id := by
  rw [owePairs, List.mem_flatMap] at hp
  rcases hp with ⟨e, _, hpe⟩
  rw [oweContribs] at hpe
  by_cases h : 0 < (cs.filter (fun c => c.expense_id == e.id)).length
  · simp only [h, if_true] at hpe
    rcases List.mem_map.mp hpe with ⟨c, hc, hpc⟩
    exact ⟨c, List.mem_of_mem_filter hc, by rw [← hpc]⟩
  · simp only [h, if_false] at hpe
    cases hpe

/-! ## Pointwise description of `getExpenses` -/

lemma resolveConsumers_length (users : List UserRow) (l : List ConsumerRow)
    (vs : List ConsumerView) (h : resolveConsumers users l = some vs) :
    vs.length = l.length := by
  induction l generalizing vs with
  | nil =>
    rw [resolveConsumers] at h
    cases h
    rfl
  | cons c t ih =>
    rw [resolveConsumers] at h
    cases hf : users.find? (fun u => u.id == c.user_id) with
    | none => rw [hf] at h; cases h
    | some u =>
      rw [hf] at h
      cases hr : resolveConsumers users t with
      | none => rw [hr] at h; cases h
      | some ws =>
        rw [hr] at h
        cases h
        simp [ih ws hr]

lemma viewOne_fields (users : List UserRow) (cs : List ConsumerRow) (e : ExpenseRow)
    (v : ExpenseView) (h : viewOne users cs e = some v) :
    v.id = e.id ∧ v.amount = e.amount ∧
    v.consumers.length = (cs.filter (fun c => c.expense_id == e.id)).length ∧
    v.amount_per_person =
      e.amount / ((cs.filter (fun c => c.expense_id == e.id)).length : ℚ) := by
  rw [viewOne] at h
  cases hp : users.find? (fun u => u.id == e.paid_by) with
  | none => rw [hp] at h; cases h
  | some payer =>
    rw [hp] at h
    cases hr : resolveConsumers users (cs.filter (fun c => c.expense_id == e.id)) with
    | none => simp only [hr] at h; cases h
    | some cvs =>
      simp only [hr] at h
      cases h
      exact ⟨rfl, rfl, resolveConsumers_length users _ cvs hr, rfl⟩

lemma viewAll_get? (users : List UserRow) (cs : List ConsumerRow) (es : List ExpenseRow)
    (res : List ExpenseView) (h : viewAll users cs es = some res) (i : Nat) (e : ExpenseRow)
    (he : es.get? i = some e) : ∃ v, res.get? i = some v ∧ viewOne users cs e = some v := by
  induction es generalizing res i with
  | nil => cases he
  | cons e0 t ih =>
    rw [viewAll] at h
    cases h0 : viewOne users cs e0 with
    | none => rw [h0] at h; cases h
    | some v0 =>
      rw [h0] at h
      cases ht : viewAll users cs t with
      | none => rw [ht] at h; cases h
      | some vs =>
        rw [ht] at h
        cases h
        cases i with
        | zero =>
          cases he
          exact ⟨v0, rfl, h0⟩
        | succ j =>
          exact ih vs ht j (by simpa using he)

/-! ## Concrete fixtures used by witnesses and counterexamples -/

def userA : UserRow := { id := 1, name := "A", email := "", password := "", created_at := "" }

def userB : UserRow := { id := 2, name := "B", email := "", password := "", created_at := "" }

/-- One expense of amount 30 paid by user 1. -/
def expense30 : ExpenseRow :=
  { id := 1, product_name := "x", quantity := 1, paid_by := 1, amount := 30,
    expense_date := "2024-01-01", note := "", created_at := "" }

def consumerRow1 : ConsumerRow := { id := 1, expense_id := 1, user_id := 1, created_at := "" }

def consumerRow2 : ConsumerRow := { id := 2, expense_id := 1, user_id := 2, created_at := "" }

/-! ## Claims -/

/-- C1: for users `{1:"A", 2:"B"}`, a single expense of amount 30 paid by
user 1 and consumer rows `[1, 2]`, `calculateBalance` returns
A: paid 30, owe 15, balance 15 and B: paid 0, owe 15, balance −15. -/
theorem claim_c1 :
    calculateBalance [userA, userB] [expense30] [consumerRow1, consumerRow2] =
      [{ id := 1, name := "A", paid := 30, owe := 15, balance := 15 },
       { id := 2, name := "B", paid := 0, owe := 15, balance := -15 }] := by
  simp only [calculateBalance, initBalances, addPaidPhase, addOwePhase, finalize, finEntry,
    mapInsert, mapUpdate, mapLookup, initEntry, userA, userB, expense30, consumerRow1,
    consumerRow2, List.foldl, List.filter, List.map, round2_eq_floor]
  norm_num

/-- C9: `getExpenses` is partial on dangling references: with a payer id
missing from the users table (first conjunct), or with a consumer row whose
`user_id` is missing (second conjunct), the unguarded `users.find(...)`
dereference aborts the call instead of producing a result. -/
theorem claim_c9 :
    getExpenses [] [expense30] [consumerRow1, consumerRow2] = none ∧
    getExpenses [userA] [expense30] [consumerRow1, consumerRow2] = none :=
  ⟨rfl, rfl⟩

lemma nextId_eq_specNextId (ids : List Nat) : nextId ids = specNextId ids := by
  cases ids with
  | nil => rfl
  | cons a t => rfl

/-- C6: both creation operations assign the id `max(existing ids, default 0) + 1`
computed on the snapshot fetched for the call, and an empty table yields id 1. -/
theorem claim_c6 (st : Tables) (ud : UserData) (ed : ExpenseData) (now : String) :
    (createUser st ud now).2.id = specNextId (st.users.map (fun r => r.id)) ∧
    (createExpense st ed now).2.id = specNextId (st.expenses.map (fun r => r.id)) ∧
    specNextId [] = 1 :=
  ⟨nextId_eq_specNextId _, nextId_eq_specNextId _, rfl⟩

lemma mkConsumerRows_length (s eid : Nat) (now : String) (uids : List Nat) :
    (mkConsumerRows s eid now uids).length = uids.length := by
  induction uids generalizing s with
  | nil => rfl
  | cons uid rest ih => simp [mkConsumerRows, ih]

lemma mkConsumerRows_user_id (s eid : Nat) (now : String) (uids : List Nat) :
    (mkConsumerRows s eid now uids).map (fun r => r.user_id) = uids := by
  induction uids generalizing s with
  | nil => rfl
  | cons uid rest ih => simp [mkConsumerRows, ih]

lemma mkConsumerRows_id (s eid : Nat) (now : String) (uids : List Nat) :
    (mkConsumerRows s eid now uids).map (fun r => r.id) = List.range' s uids.length := by
  induction uids generalizing s with
  | nil => rfl
  | cons uid rest ih => simp [mkConsumerRows, List.range'_succ, ih]

lemma mkConsumerRows_expense_id (s eid : Nat) (now : String) (uids : List Nat) :
    (mkConsumerRows s eid now uids).map (fun r => r.expense_id) =
      List.replicate uids.length eid := by
  induction uids generalizing s with
  | nil => rfl
  | cons uid rest ih => simp [mkConsumerRows, List.replicate_succ, ih]

/-- C7: a valid `createExpense` call appends exactly one consumer row per
consumer, in list order, with sequential ids `start, start+1, …` where
`start` is the max+1 scan of the consumer table, and each appended row's
`expense_id` is the id of the newly created expense. -/
theorem claim_c7 (st : Tables) (d : ExpenseData) (now : String) :
    (createExpense st d now).1.consumers.take st.consumers.length = st.consumers ∧
    ((createExpense st d now).1.consumers.drop st.consumers.length).length =
      d.consumers.length ∧
    ((createExpense st d now).1.consumers.drop st.consumers.length).map
      (fun r => r.user_id) = d.consumers ∧
    ((createExpense st d now).1.consumers.drop st.consumers.length).map (fun r => r.id) =
      List.range' (nextId (st.consumers.map (fun r => r.id))) d.consumers.length ∧
    ((createExpense st d now).1.consumers.drop st.consumers.length).map
      (fun r => r.expense_id) =
      List.replicate d.consumers.length (createExpense st d now).2.id := by
  have hc : (createExpense st d now).1.consumers =
      st.consumers ++ mkConsumerRows (nextId (st.consumers.map (fun r => r.id)))
        (nextId (st.expenses.map (fun r => r.id))) now d.consumers := rfl
  rw [hc, List.take_left, List.drop_left]
  exact ⟨rfl, mkConsumerRows_length _ _ _ _, mkConsumerRows_user_id _ _ _ _,
    mkConsumerRows_id _ _ _ _, mkConsumerRows_expense_id _ _ _ _⟩

/-- The single view `getExpenses` produces for the C1/C2 scenario. -/
def view30 : ExpenseView :=
  { id := 1, product_name := "x", quantity := 1, amount := 30,
    expense_date := "2024-01-01", note := "", paid_by := { id := 1, name := "A" },
    consumers := [{ id := 1, name := "A" }, { id := 2, name := "B" }],
    amount_per_person := 15, created_at := "" }

/-- C2: for an expense whose consumer group is non-empty, the view built by
`getExpenses` reports `amount_per_person = amount / |C|` (with `|C|` the number
of consumer rows of the expense, also the length of the rendered consumer
list), and the owe contributions of that expense in `calculateBalance` sum to
exactly the amount. -/
theorem claim_c2 (users : List UserRow) (es : List ExpenseRow) (cs : List ConsumerRow)
    (res : List ExpenseView) (i : Nat) (e : ExpenseRow) (v : ExpenseView)
    (hres : getExpenses users es cs = some res)
    (he : es.get? i = some e) (hv : res.get? i = some v)
    (hne : cs.filter (fun c => c.expense_id == e.id) ≠ []) :
    v.amount_per_person =
      e.amount / ((cs.filter (fun c => c.expense_id == e.id)).length : ℚ) ∧
    v.consumers.length = (cs.filter (fun c => c.expense_id == e.id)).length ∧
    ((oweContribs cs e).map Prod.snd).sum = e.amount := by
  rcases viewAll_get? users cs es res hres i e he with ⟨w, hw, hone⟩
  rw [hv] at hw
  cases hw
  rcases viewOne_fields users cs e v hone with ⟨_, _, hlen, happ⟩
  exact ⟨happ, hlen, sum_oweContribs cs e hne⟩

theorem claim_c2_witness :
    view30.amount_per_person =
      expense30.amount /
        ((([consumerRow1, consumerRow2] : List ConsumerRow).filter
          (fun c => c.expense_id == expense30.id)).length : ℚ) ∧
    view30.consumers.length =
      (([consumerRow1, consumerRow2] : List ConsumerRow).filter
        (fun c => c.expense_id == expense30.id)).length ∧
    ((oweContribs [consumerRow1, consumerRow2] expense30).map Prod.snd).sum =
      expense30.amount :=
  claim_c2 [userA, userB] [expense30] [consumerRow1, consumerRow2] [view30] 0 expense30 view30
    (by
      simp only [getExpenses, viewAll, viewOne, resolveConsumers, userA, userB, expense30,
        consumerRow1, consumerRow2, view30, List.find?, List.filter]
      norm_num
      decide)
    rfl rfl (by decide)

/-- C3: every user in the users table gets an entry whose `balance` is the
rounded difference of the unrounded accumulated `paid` and `owe`, with the
returned `paid` and `owe` fields themselves rounded to 2 decimals by
`round2` (JS `Math.round(x*100)/100`). -/
theorem claim_c3 (users : List UserRow) (es : List ExpenseRow) (cs : List ConsumerRow)
    (u : UserRow) (hu : u ∈ users) :
    ∃ entry ∈ calculateBalance users es cs,
      entry.id = u.id ∧
      entry.balance = round2 (paidRaw es u.id - oweRaw es cs u.id) ∧
      entry.paid = round2 (paidRaw es u.id) ∧
      entry.owe = round2 (oweRaw es cs u.id) := by
  rw [calculateBalance_eq]
  exact ⟨finalEntry users es cs u.id,
    List.mem_map_of_mem _ ((mem_sortedIds users u.id).mpr (List.mem_map.mpr ⟨u, hu, rfl⟩)),
    rfl, rfl, rfl, rfl⟩

theorem claim_c3_witness :
    ∃ entry ∈ calculateBalance [userA, userB] [expense30] [consumerRow1, consumerRow2],
      entry.id = userA.id ∧
      entry.balance = round2 (paidRaw [expense30] userA.id -
        oweRaw [expense30] [consumerRow1, consumerRow2] userA.id) ∧
      entry.paid = round2 (paidRaw [expense30] userA.id) ∧
      entry.owe = round2 (oweRaw [expense30] [consumerRow1, consumerRow2] userA.id) :=
  claim_c3 [userA, userB] [expense30] [consumerRow1, consumerRow2] userA (by decide)

/-- C8: with dangling references present, `calculateBalance` still returns a
result (the embedding is total, mirroring the `if (balances[id])` guards), no
returned entry belongs to an unknown id, and each entry's `paid`/`owe` only
sum contributions keyed by the entry's own id — so unknown payers and unknown
consumers are credited to nobody. -/
theorem claim_c8 (users : List UserRow) (es : List ExpenseRow) (cs : List ConsumerRow)
    (_hdang : (∃ e ∈ es, e.paid_by ∉ users.map (fun u => u.id)) ∨
      (∃ c ∈ cs, c.user_id ∉ users.map (fun u => u.id))) :
    ∀ entry ∈ calculateBalance users es cs,
      entry.id ∈ users.map (fun u => u.id) ∧
      entry.paid = round2 (paidRaw es entry.id) ∧
      entry.owe = round2 (oweRaw es cs entry.id) ∧
      entry.balance = round2 (paidRaw es entry.id - oweRaw es cs entry.id) := by
  intro entry hentry
  rw [calculateBalance_eq] at hentry
  rcases List.mem_map.mp hentry with ⟨k, hk, hek⟩
  subst hek
  exact ⟨(mem_sortedIds users k).mp hk, rfl, rfl, rfl⟩

/-- The entry user 1 receives in the dangling-reference scenario of the C8
witness. -/
def entryA8 : BalanceEntry := finalEntry [userA] [expense30] [consumerRow1, consumerRow2] 1

theorem claim_c8_witness :
    entryA8.id ∈ [userA].map (fun u => u.id) ∧
    entryA8.paid = round2 (paidRaw [expense30] entryA8.id) ∧
    entryA8.owe = round2 (oweRaw [expense30] [consumerRow1, consumerRow2] entryA8.id) ∧
    entryA8.balance = round2 (paidRaw [expense30] entryA8.id -
      oweRaw [expense30] [consumerRow1, consumerRow2] entryA8.id) :=
  claim_c8 [userA] [expense30] [consumerRow1, consumerRow2] (by decide) entryA8
    (by
      rw [calculateBalance_eq]
      exact List.mem_map_of_mem _ (by decide))

lemma sumFor_eq_zero (ps : List (Nat × ℚ)) (k : Nat) (h : ∀ p ∈ ps, p.1 ≠ k) :
    sumFor ps k = 0 := by
  rw [sumFor]
  have : ps.filter (fun p => p.1 = k) = [] :=
    List.filter_eq_nil_iff.mpr (fun p hp => by simpa using h p hp)
  rw [this]
  rfl

/-- C10: with pairwise-distinct user ids, `calculateBalance` returns exactly
one entry per user — the returned id list is strictly ascending (JS integer
object-key order, not users-table row order) and a permutation of the user
ids — and a user mentioned by no expense and no consumer row gets the entry
`paid = owe = balance = 0`. -/
theorem claim_c10 (users : List UserRow) (es : List ExpenseRow) (cs : List ConsumerRow)
    (hnd : (users.map (fun u => u.id)).Nodup) :
    ((calculateBalance users es cs).map (fun b => b.id)).Pairwise (· < ·) ∧
    List.Perm ((calculateBalance users es cs).map (fun b => b.id))
      (users.map (fun u => u.id)) ∧
    (∀ u ∈ users, (∀ e ∈ es, e.paid_by ≠ u.id) → (∀ c ∈ cs, c.user_id ≠ u.id) →
      ∃ entry ∈ calculateBalance users es cs,
        entry.id = u.id ∧ entry.paid = 0 ∧ entry.owe = 0 ∧ entry.balance = 0) := by
  have hids : (calculateBalance users es cs).map (fun b => b.id) = sortedIds users := by
    rw [calculateBalance_eq, List.map_map]
    exact List.map_id _
  refine ⟨?_, ?_, ?_⟩
  · rw [hids]; exact sortedIds_pairwise users
  · rw [hids]
    have h1 : (sortedIds users).Nodup :=
      List.Pairwise.imp (fun h => Nat.ne_of_lt h) (sortedIds_pairwise users)
    exact (List.perm_ext_iff_of_nodup h1 hnd).mpr (fun a => mem_sortedIds users a)
  · intro u hu hpe hce
    have hpaid : paidRaw es u.id = 0 := by
      apply sumFor_eq_zero
      intro p hp
      rcases List.mem_map.mp hp with ⟨e, he, hpe'⟩
      rw [← hpe']
      exact hpe e he
    have howe : oweRaw es cs u.id = 0 := by
      apply sumFor_eq_zero
      intro p hp
      rcases owePairs_fst_mem es cs p hp with ⟨c, hc, hpc⟩
      rw [hpc]
      exact hce c hc
    rw [calculateBalance_eq]
    refine ⟨finalEntry users es cs u.id,
      List.mem_map_of_mem _ ((mem_sortedIds users u.id).mpr (List.mem_map.mpr ⟨u, hu, rfl⟩)),
      rfl, ?_, ?_, ?_⟩
    · show round2 (paidRaw es u.id) = 0
      rw [hpaid, round2_zero]
    · show round2 (oweRaw es cs u.id) = 0
      rw [howe, round2_zero]
    · show round2 (paidRaw es u.id - oweRaw es cs u.id) = 0
      rw [hpaid, howe, sub_zero, round2_zero]

theorem claim_c10_witness :
    ((calculateBalance [userA, userB] [expense30] []).map (fun b => b.id)).Pairwise (· < ·) ∧
    List.Perm ((calculateBalance [userA, userB] [expense30] []).map (fun b => b.id))
      ([userA, userB].map (fun u => u.id)) ∧
    (∃ entry ∈ calculateBalance [userA, userB] [expense30] [],
      entry.id = userB.id ∧ entry.paid = 0 ∧ entry.owe = 0 ∧ entry.balance = 0) := by
  have h := claim_c10 [userA, userB] [expense30] [] (by decide)
  exact ⟨h.1, h.2.1, h.2.2 userB (by decide) (by decide) (by decide)⟩

/-- C4 as stated is false: an expense with no consumer rows (possible when the
sheet is edited directly; the claim's hypothesis does not exclude it, since a
missing consumer group makes "every consumer row's user id is known"
vacuously true) adds to the payer's `paid` but to nobody's `owe`.  Here the
single expense's payer is a known user and there are no consumer rows at all,
yet the balances sum to 30, far beyond any rounding error. -/
theorem claim_c4_counterexample :
    expense30.paid_by ∈ [userA].map (fun u => u.id) ∧
    ((calculateBalance [userA] [expense30] []).map (fun b => b.balance)).sum = 30 ∧
    ¬(|((calculateBalance [userA] [expense30] []).map (fun b => b.balance)).sum| ≤
        ((calculateBalance [userA] [expense30] []).length : ℚ) / 200) := by
  have hcalc : calculateBalance [userA] [expense30] [] =
      [{ id := 1, name := "A", paid := 30, owe := 0, balance := 30 }] := by
    simp only [calculateBalance, initBalances, addPaidPhase, addOwePhase, finalize, finEntry,
      mapInsert, mapUpdate, mapLookup, initEntry, userA, expense30,
      List.foldl, List.filter, List.map, round2_eq_floor]
    norm_num
  refine ⟨by decide, ?_, ?_⟩
  · rw [hcalc]; norm_num
  · rw [hcalc]; norm_num

/-- C4 amended: *when additionally every expense has at least one consumer
row*, conservation holds — the per-user differences `paid − owe` sum to
exactly 0 before rounding, and the returned balances sum to at most half a
cent per returned entry in absolute value. -/
theorem claim_c4_amended (users : List UserRow) (es : List ExpenseRow) (cs : List ConsumerRow)
    (hpayers : ∀ e ∈ es, e.paid_by ∈ users.map (fun u => u.id))
    (hcons : ∀ c ∈ cs, c.user_id ∈ users.map (fun u => u.id))
    (hgroups : ∀ e ∈ es, cs.filter (fun c => c.expense_id == e.id) ≠ []) :
    ((sortedIds users).map (fun k => paidRaw es k - oweRaw es cs k)).sum = 0 ∧
    |((calculateBalance users es cs).map (fun b => b.balance)).sum| ≤
      ((calculateBalance users es cs).length : ℚ) / 200 := by
  have hnd : (sortedIds users).Nodup :=
    List.Pairwise.imp (fun h => Nat.ne_of_lt h) (sortedIds_pairwise users)
  have hmem1 : ∀ p ∈ es.map (fun e => (e.paid_by, e.amount)), p.1 ∈ sortedIds users := by
    intro p hp
    rcases List.mem_map.mp hp with ⟨e, he, hpe⟩
    rw [← hpe, mem_sortedIds]
    exact hpayers e he
  have hmem2 : ∀ p ∈ owePairs es cs, p.1 ∈ sortedIds users := by
    intro p hp
    rcases owePairs_fst_mem es cs p hp with ⟨c, hc, hpc⟩
    rw [hpc, mem_sortedIds]
    exact hcons c hc
  have hpaid := list_sum_sumFor (sortedIds users) (es.map (fun e => (e.paid_by, e.amount)))
    hnd hmem1
  have howe := list_sum_sumFor (sortedIds users) (owePairs es cs) hnd hmem2
  have htot : ((owePairs es cs).map Prod.snd).sum =
      ((es.map (fun e => (e.paid_by, e.amount))).map Prod.snd).sum := by
    rw [owePairs, list_sum_map_flatMap, List.map_map]
    congr 1
    apply List.map_congr_left
    intro e he
    rw [sum_oweContribs cs e (hgroups e he)]
    rfl
  have hzero : ((sortedIds users).map (fun k => paidRaw es k - oweRaw es cs k)).sum = 0 := by
    simp only [paidRaw, oweRaw]
    rw [list_sum_map_sub, hpaid, howe, htot, sub_self]
  refine ⟨hzero, ?_⟩
  have hbal : (calculateBalance users es cs).map (fun b => b.balance) =
      (sortedIds users).map (fun k => round2 (paidRaw es k - oweRaw es cs k)) := by
    rw [calculateBalance_eq, List.map_map]
    rfl
  have hlen : (calculateBalance users es cs).length = (sortedIds users).length := by
    rw [calculateBalance_eq, List.length_map]
  rw [hbal, hlen]
  have hsplit : ((sortedIds users).map
        (fun k => round2 (paidRaw es k - oweRaw es cs k))).sum =
      ((sortedIds users).map (fun k =>
        round2 (paidRaw es k - oweRaw es cs k) - (paidRaw es k - oweRaw es cs k))).sum +
      ((sortedIds users).map (fun k => paidRaw es k - oweRaw es cs k)).sum := by
    rw [← list_sum_map_add]
    congr 1
    apply List.map_congr_left
    intro k _
    ring
  rw [hsplit, hzero, add_zero]
  calc |((sortedIds users).map (fun k =>
        round2 (paidRaw es k - oweRaw es cs k) - (paidRaw es k - oweRaw es cs k))).sum|
      ≤ (((sortedIds users).map (fun k =>
          round2 (paidRaw es k - oweRaw es cs k) - (paidRaw es k - oweRaw es cs k))).map
            (fun x => |x|)).sum := list_abs_sum_le _
    _ = ((sortedIds users).map (fun k =>
          |round2 (paidRaw es k - oweRaw es cs k) - (paidRaw es k - oweRaw es cs k)|)).sum := by
        rw [List.map_map]; rfl
    _ ≤ ((sortedIds users).length : ℚ) * (1 / 200) :=
        list_sum_le_length_mul _ _ _ (fun k _ => abs_round2_sub_le _)
    _ = ((sortedIds users).length : ℚ) / 200 := by ring

theorem claim_c4_witness :
    ((sortedIds [userA, userB]).map (fun k =>
        paidRaw [expense30] k - oweRaw [expense30] [consumerRow1, consumerRow2] k)).sum = 0 ∧
    |((calculateBalance [userA, userB] [expense30] [consumerRow1, consumerRow2]).map
        (fun b => b.balance)).sum| ≤
      ((calculateBalance [userA, userB] [expense30] [consumerRow1, consumerRow2]).length :
        ℚ) / 200 :=
  claim_c4_amended [userA, userB] [expense30] [consumerRow1, consumerRow2]
    (by decide) (by decide) (by decide)

/-! ## The `POST /expenses` validation (C5) -/

/-- A request with every field present but `amount = 0`: nothing is missing,
yet JS truthiness (`!amount`) rejects it. -/
def reqAmountZero : ExpenseReq :=
  { product_name := some "Milk", quantity := some 1, paid_by := some 1, amount := some 0,
    expense_date := some "2024-01-01", note := some "", consumers := some [1] }

/-- C5 as stated is false: the handler checks JS truthiness, not presence.
This request carries every required field and a non-empty consumer list, so
the claim's "400 iff a field is missing" predicts a 201 — but `amount` is the
(present) number 0, `!amount` is true, and the handler answers 400. -/
theorem claim_c5_counterexample :
    (postExpense { users := [], expenses := [], consumers := [] } reqAmountZero "t").status =
      400 ∧
    (postExpense { users := [], expenses := [], consumers := [] } reqAmountZero "t").body =
      none ∧
    reqAmountZero.product_name = some "Milk" ∧
    reqAmountZero.paid_by = some 1 ∧
    reqAmountZero.amount = some 0 ∧
    reqAmountZero.expense_date = some "2024-01-01" ∧
    reqAmountZero.consumers = some [1] := by
  refine ⟨?_, ?_, rfl, rfl, rfl, rfl, rfl⟩ <;>
    simp [postExpense, reqAmountZero, truthyStr, truthyNat, truthyNum, consumersMissing]

lemma postGuard_iff (r : ExpenseReq) :
    (!truthyStr r.product_name || !truthyNat r.paid_by || !truthyNum r.amount ||
      !truthyStr r.expense_date || consumersMissing r.consumers) = true ↔
    (r.product_name = none ∨ r.product_name = some "" ∨
     r.paid_by = none ∨ r.paid_by = some 0 ∨
     r.amount = none ∨ r.amount = some 0 ∨
     r.expense_date = none ∨ r.expense_date = some "" ∨
     r.consumers = none ∨ r.consumers = some []) := by
  rcases r with ⟨pn, q, pb, am, ed, nt, co⟩
  cases pn <;> cases pb <;> cases am <;> cases ed <;> cases co <;>
    simp [truthyStr, truthyNat, truthyNum, consumersMissing, List.isEmpty_iff] <;>
    tauto

/-- C5 amended: the handler answers 400 — leaving the store untouched and the
body empty — exactly when a required field is missing **or falsy by JS
truthiness** (the empty string for `product_name`/`expense_date`, the number 0
for `paid_by`/`amount`) or the consumer list is missing or empty; otherwise it
creates the expense from the defaulted payload and answers 201 with the
created record. -/
theorem claim_c5_amended (st : Tables) (r : ExpenseReq) (now : String) :
    (((postExpense st r now).status = 400 ∧ (postExpense st r now).state = st ∧
        (postExpense st r now).body = none) ↔
      (r.product_name = none ∨ r.product_name = some "" ∨
       r.paid_by = none ∨ r.paid_by = some 0 ∨
       r.amount = none ∨ r.amount = some 0 ∨
       r.expense_date = none ∨ r.expense_date = some "" ∨
       r.consumers = none ∨ r.consumers = some [])) ∧
    (¬(r.product_name = none ∨ r.product_name = some "" ∨
       r.paid_by = none ∨ r.paid_by = some 0 ∨
       r.amount = none ∨ r.amount = some 0 ∨
       r.expense_date = none ∨ r.expense_date = some "" ∨
       r.consumers = none ∨ r.consumers = some []) →
      (postExpense st r now).status = 201 ∧
      (postExpense st r now).state = (createExpense st (reqToData r) now).1 ∧
      (postExpense st r now).body = some (createExpense st (reqToData r) now).2) := by
  by_cases hg : (!truthyStr r.product_name || !truthyNat r.paid_by || !truthyNum r.amount ||
      !truthyStr r.expense_date || consumersMissing r.consumers) = true
  · have hP := (postGuard_iff r).mp hg
    have h400 : postExpense st r now = { status := 400, state := st, body := none } := by
      rw [postExpense, if_pos hg]
    constructor
    · rw [h400]
      simp [hP]
    · intro hnP
      exact absurd hP hnP
  · have hP : ¬(r.product_name = none ∨ r.product_name = some "" ∨
        r.paid_by = none ∨ r.paid_by = some 0 ∨
        r.amount = none ∨ r.amount = some 0 ∨
        r.expense_date = none ∨ r.expense_date = some "" ∨
        r.consumers = none ∨ r.consumers = some []) :=
      fun hp => hg ((postGuard_iff r).mpr hp)
    have h201 : postExpense st r now =
        { status := 201, state := (createExpense st (reqToData r) now).1,
          body := some (createExpense st (reqToData r) now).2 } := by
      rw [postExpense, if_neg hg]
    constructor
    · constructor
      · rintro ⟨h, -, -⟩
        rw [h201] at h
        exact absurd h (by norm_num)
      · intro hp
        exact absurd hp hP
    · intro _
      rw [h201]
      exact ⟨rfl, rfl, rfl⟩

/-- A fully valid request: `quantity` and `note` absent (they default), every
required field present and truthy, two consumers. -/
def reqValid : ExpenseReq :=
  { product_name := some "Milk", quantity := none, paid_by := some 1, amount := some 10,
    expense_date := some "2024-01-01", note := none, consumers := some [1, 2] }

theorem claim_c5_witness :
    (postExpense { users := [], expenses := [], consumers := [] } reqValid "t").status = 201 ∧
    (postExpense { users := [], expenses := [], consumers := [] } reqValid "t").state =
      (createExpense { users := [], expenses := [], consumers := [] }
        (reqToData reqValid) "t").1 ∧
    (postExpense { users := [], expenses := [], consumers := [] } reqValid "t").body =
      some (createExpense { users := [], expenses := [], consumers := [] }
        (reqToData reqValid) "t").2 :=
  (claim_c5_amended { users := [], expenses := [], consumers := [] } reqValid "t").2
    (by simp [reqValid])

end Chome2
